import Mathlib

/-!
Verification development for the AmazonImageSelectInput component
(src/app/scripts/modules/amazon/src/serverGroup/configure/AmazonImageSelectInput.tsx).

The component is shallowly embedded: pure helpers become Lean functions,
network readers become explicit function parameters returning Except values,
and the reactive pipelines wired up in componentDidMount become a step
function on an explicit component state, processing discrete events
(region changes, fetch completions, search input).
-/

/-- Attribute bag of an image. Only virtualizationType is relevant here. -/
structure IAmazonImageAttributes where
  virtualizationType : String
deriving DecidableEq, Repr

/-- An Amazon image: a name, a map from region to the list of backing
identifiers (AMIs) in that region, and an attribute bag. The amis object
of the source is modelled as an association list keyed by region. -/
structure IAmazonImage where
  imageName : String
  amis : List (String × List String)
  attributes : IAmazonImageAttributes
deriving DecidableEq, Repr

/-- Truthiness of img.amis[region] in the source: the key is present
(a present key maps to an array, and arrays are truthy even when empty). -/
def hasAmiInRegion (img : IAmazonImage) (region : String) : Bool :=
  (img.amis.lookup region).isSome

/-- Source lines 45-55. Returns null when both imageName and imageId are
falsy (for strings: empty); otherwise builds an image whose amis object
has the single key region mapped to the one-element list [imageId]. -/
def makeFakeImage (imageName imageId region : String) : Option IAmazonImage :=
  if imageName = "" ∧ imageId = "" then none
  else some { imageName := imageName
              amis := [(region, [imageId])]
              attributes := { virtualizationType := "*" } }

/-- JavaScript String.prototype.split with a single-character separator,
at the level of character lists. Splitting the empty list yields one
empty segment, as in JavaScript. -/
def splitOnChar (sep : Char) : List Char → List (List Char)
  | [] => [[]]
  | c :: cs =>
    match splitOnChar sep cs with
    | [] => [[]]
    | w :: ws => if c = sep then [] :: w :: ws else (c :: w) :: ws

/-- JavaScript s.split(sep) for a single-character separator sep. -/
def jsSplit (s : String) (sep : Char) : List String :=
  (splitOnChar sep s.data).map String.mk

/-- Source lines 62-73. Derives the similar-images search query from an
image name: take the part before the first underscore, split it on
hyphens; with more than 3 hyphen segments drop the last 3 and rejoin
(remembering to add a dash before the wildcard); return none when the
resulting base is empty or shorter than 3 characters. -/
def buildQueryForSimilarImages (imageName : String) : Option String :=
  let packageBase0 := (jsSplit imageName '_').headD ""
  let parts := jsSplit packageBase0 '-'
  let truncated := parts.length > 3
  let packageBase :=
    if truncated then String.intercalate "-" (parts.take (parts.length - 3))
    else packageBase0
  if packageBase = "" ∨ packageBase.length < 3 then none
  else some (packageBase ++ (if truncated then "-*" else "*"))

/-- Hexadecimal digit as in the character class [0-9a-f]. -/
def isAmiHexDigit (c : Char) : Bool :=
  c.isDigit || ('a' ≤ c && c ≤ 'f')

/-- Whether the literal "ami-" followed by at least 8 hex digits occurs at
the head of the character list. -/
def amiMatchAt : List Char → Bool
  | 'a' :: 'm' :: 'i' :: '-' :: rest => 8 ≤ (rest.takeWhile isAmiHexDigit).length
  | _ => false

/-- Helper scanning every suffix for an "ami-" match. -/
def hasAmiPatternAux : List Char → Bool
  | [] => false
  | c :: cs => amiMatchAt (c :: cs) || hasAmiPatternAux cs

/-- Truthiness of /ami-[0-9a-f]\x7b8,17\x7d/.exec(s) at source line 166: the
unanchored regex finds a match somewhere in s exactly when at least 8
consecutive hex digits follow a literal "ami-" at some position (a bounded
repetition of 8 to 17 succeeds whenever 8 or more are available). -/
def hasAmiPattern (s : String) : Bool :=
  hasAmiPatternAux s.data

/-- Strict lexicographic order on character lists by code point. -/
def charListLt : List Char → List Char → Bool
  | [], [] => false
  | [], _ :: _ => true
  | _ :: _, [] => false
  | a :: as, b :: bs =>
    if a.val < b.val then true
    else if b.val < a.val then false
    else charListLt as bs

/-- Strict name order used by the comparator at source line 92. -/
def imageNameLt (a b : IAmazonImage) : Bool :=
  charListLt a.imageName.data b.imageName.data

/-- Stable insertion of an image into a name-sorted list. -/
def insertByName (img : IAmazonImage) : List IAmazonImage → List IAmazonImage
  | [] => [img]
  | x :: xs => if imageNameLt img x then img :: x :: xs else x :: insertByName img xs

/-- Models similarImages.sort((a, b) => a.imageName.localeCompare(b.imageName))
at source line 92: a stable sort by image name (the exact collation used by
localeCompare is irrelevant to the verified claims). -/
def sortByName (l : List IAmazonImage) : List IAmazonImage :=
  l.foldr insertByName []

/-- Source lines 75-94. The network reader findImages is passed in
explicitly as a function from query to a fallible result; the then
continuation maps over a successful result and a rejection propagates.
Note the find predicate at line 87 compares with a strict inequality, so
the exact image is concatenated precisely when no returned image has a
name different from the exact name. -/
def findImagesSimilarTo (exactImage : Option IAmazonImage)
    (findImages : String → Except Unit (List IAmazonImage)) :
    Except Unit (List IAmazonImage) :=
  match exactImage with
  | none => Except.ok []
  | some exact =>
    match buildQueryForSimilarImages exact.imageName with
    | none => Except.ok [exact]
    | some similarImagesQuery =>
      (findImages similarImagesQuery).map (fun similarImages =>
        let similarImages :=
          if (similarImages.find? (fun image => image.imageName != exact.imageName)).isNone
          then similarImages ++ [exact]
          else similarImages
        sortByName similarImages)

/-- Source lines 96-101. getImage result is passed in as a fallible
optional image; the trailing catch converts any rejection from getImage or
from the similar-images search into an empty list. -/
def loadImagesFromImageId (getImageRes : Except Unit (Option IAmazonImage))
    (findImages : String → Except Unit (List IAmazonImage)) : List IAmazonImage :=
  match getImageRes.bind (fun image => findImagesSimilarTo image findImages) with
  | Except.ok l => l
  | Except.error _ => []

/-- Source line 58: application.name.replace(/_/g, the class matching
underscore or hyphen) plus a trailing wildcard. -/
def applicationNameQuery (appName : String) : String :=
  appName.replace "_" "[_\\-]" ++ "*"

/-- Source lines 57-60. -/
def loadImagesFromApplicationName (appName : String)
    (findImages : String → Except Unit (List IAmazonImage)) :
    Except Unit (List IAmazonImage) :=
  findImages (applicationNameQuery appName)

/-- Truthiness of value && value.amis && value.amis[region] &&
value.amis[region][0] at source line 114: the value exists, its amis
object has the region key, the list there is nonempty, and the first
identifier is a nonempty string. -/
def imageIdOf (value : Option IAmazonImage) (region : String) : Option String :=
  match value with
  | none => none
  | some v =>
    match v.amis.lookup region with
    | none => none
    | some ids =>
      match ids.head? with
      | none => none
      | some id => if id = "" then none else some id

/-- Source lines 108-119. The two network readers are explicit parameters:
getImage takes the image id, region and credentials; findImages takes a
query string. -/
def fetchPackageImages (value : Option IAmazonImage) (region credentials : String)
    (appName : String)
    (getImage : String → String → String → Except Unit (Option IAmazonImage))
    (findImages : String → Except Unit (List IAmazonImage)) :
    Except Unit (List IAmazonImage) :=
  match imageIdOf value region with
  | some imageId => Except.ok (loadImagesFromImageId (getImage imageId region credentials) findImages)
  | none => loadImagesFromApplicationName appName findImages

/-- Source lines 136-142: the package images observable with its catch.
Returns the image list delivered to the pipeline together with the error
message recorded in component state by this stage (none when no message is
set). -/
def packagePipeline (value : Option IAmazonImage) (region credentials appName : String)
    (getImage : String → String → String → Except Unit (Option IAmazonImage))
    (findImages : String → Except Unit (List IAmazonImage)) :
    List IAmazonImage × Option String :=
  match fetchPackageImages value region credentials appName getImage findImages with
  | Except.ok l => (l, none)
  | Except.error _ => ([], some "Unable to load package images")

/-- Source lines 103-106. Returns the list of queries sent to the network
reader together with the (fallible) result. A query under 3 characters,
including the empty string which is falsy, short-circuits to an empty
resolved list without touching the reader. -/
def searchForImages (query : String)
    (findImages : String → Except Unit (List IAmazonImage)) :
    List String × Except Unit (List IAmazonImage) :=
  if 3 ≤ query.length then ([query], findImages query)
  else ([], Except.ok [])

/-- Source lines 153-161: the search observable with its catch. Returns
the queries sent, the list delivered to the pipeline, and the error
message recorded by this stage. -/
def searchPipeline (query : String)
    (findImages : String → Except Unit (List IAmazonImage)) :
    List String × List IAmazonImage × Option String :=
  match searchForImages query findImages with
  | (reqs, Except.ok l) => (reqs, l, none)
  | (reqs, Except.error _) => (reqs, [], some "Unable to search for images")

/-- Source lines 163-173: combine the latest raw search results with the
latest region. With zero raw results and a search string matching the ami
identifier pattern, synthesize the single fake image (filtering out a null
fake); otherwise keep only images having an amis entry for the region. -/
def regionFilter (imgs : List IAmazonImage) (region : String) : List IAmazonImage :=
  imgs.filter (fun img => hasAmiInRegion img region)

/-- Source lines 163-173, the map body. -/
def searchImagesInRegion (searchResults : List IAmazonImage)
    (searchString latestRegion : String) : List IAmazonImage :=
  if searchResults.length = 0 ∧ hasAmiPattern searchString = true then
    (makeFakeImage searchString searchString latestRegion).toList
  else
    regionFilter searchResults latestRegion

/-- Source lines 127-129: first image whose name equals the name of the
selected image; none when nothing is selected or nothing matches. -/
def findMatchingImage (images : List IAmazonImage) (selectedImage : Option IAmazonImage) :
    Option IAmazonImage :=
  match selectedImage with
  | none => none
  | some sel => images.find? (fun img => sel.imageName == img.imageName)

/-! ## The componentDidMount pipelines as a step function

The reactive wiring of componentDidMount (source lines 131-196) is
embedded as a step function over an explicit component state, processing
discrete events: a region change arriving on region$, completion of the
package images fetch, completion of a search fetch, a debounced search
input, and the one-way mode toggle. We model runs after the first update
cycle, when region$ has delivered the current region to every standing
subscription. Network calls issued by an event are returned as a list of
findImages query strings; the package images fetch is issued once at
mount, before the first event, so no event below re-issues it.

Emissions are the values passed to selectImage (source lines 121-125);
onChange fires for the subset of those calls whose argument differs from
the current value by reference. The props value is updated to the last
selection computed during an event, modelling the parent echoing the
onChange value back into props. -/

/-- The two selection modes (source line 21). -/
inductive Mode where
  | packageImages
  | searchAllImages
deriving DecidableEq, Repr

/-- Events driving the mounted component. -/
inductive Event where
  | regionChange (r : String)
  | packageFetchComplete (res : Except Unit (List IAmazonImage))
  | searchFetchComplete (res : Except Unit (List IAmazonImage))
  | searchInput (s : String)
  | modeToggle
deriving Repr

/-- The mounted component state: the props region and value, the component
state fields, the latest raw lists delivered by the two fetch observables
(none while the first delivery is pending), and the reconciliation branch
currently active inside the switchMap at source lines 182-195 (chosen from
the mode at the time of the last region emission). -/
structure CState where
  mode : Mode
  region : String
  value : Option IAmazonImage
  searchString : String
  rawPackageImages : Option (List IAmazonImage)
  rawSearchResults : Option (List IAmazonImage)
  packageImages : Option (List IAmazonImage)
  searchResults : Option (List IAmazonImage)
  errorMessage : Option String
  reconMode : Mode
deriving Repr

/-- Source lines 188-192: in search mode the reconciliation emits the
selected image when it has an amis entry for the new region and undefined
otherwise (a missing value also yields undefined). -/
def searchModeReconcile (value : Option IAmazonImage) (r : String) : Option IAmazonImage :=
  match value with
  | some img => if hasAmiInRegion img r then some img else none
  | none => none

/-- Emission of the packageImagesInRegion$ subscriber (source lines
176-179) when region$ emits r: nothing while the fetch is still pending,
else the match of the current value against the re-filtered list. -/
def packageSubEmission (s : CState) (r : String) : List (Option IAmazonImage) :=
  match s.rawPackageImages with
  | some raw => [findMatchingImage (regionFilter raw r) s.value]
  | none => []

/-- Emission of the reconciliation stream (source lines 182-195) when
region$ emits r: in package mode it waits for the region-filtered package
list (nothing while the fetch is pending); in search mode it emits the
validated selection immediately. -/
def reconEmission (s : CState) (r : String) : List (Option IAmazonImage) :=
  match s.mode with
  | Mode.packageImages =>
    match s.rawPackageImages with
    | some raw => [findMatchingImage (regionFilter raw r) s.value]
    | none => []
  | Mode.searchAllImages => [searchModeReconcile s.value r]

/-- The last selection computed during an event, or the unchanged value. -/
def lastOr (ems : List (Option IAmazonImage)) (v : Option IAmazonImage) : Option IAmazonImage :=
  ems.getLast?.getD v

/-- A region change delivered by region$ (distinctUntilChanged at source
line 132 drops a repeat of the current region). All three standing
subscriptions react: searchImagesInRegion$ and packageImagesInRegion$
recombine their latest raw list with the new region (source lines 144-146
and 163-173), and the reconciliation switchMap re-selects its branch from
the current mode (source lines 182-195). No network call is issued. -/
def stepRegionChange (s : CState) (r : String) :
    CState × List (Option IAmazonImage) × List String :=
  if r = s.region then (s, [], []) else
  let newSearchResults :=
    match s.rawSearchResults with
    | some raw => some (searchImagesInRegion raw s.searchString r)
    | none => s.searchResults
  let newPackageImages :=
    match s.rawPackageImages with
    | some raw => some (regionFilter raw r)
    | none => s.packageImages
  let ems := packageSubEmission s r ++ reconEmission s r
  ({ s with region := r
            searchResults := newSearchResults
            packageImages := newPackageImages
            reconMode := s.mode
            value := lastOr ems s.value }, ems, [])

/-- Completion of the package images fetch started at mount. A rejection
was caught at source lines 137-141, recording the error message and
substituting an empty list. The packageImagesInRegion$ subscriber emits
the match against the filtered list (source lines 176-179); when the
active reconciliation branch is the package one, its inner subscription to
packageImagesInRegion$ emits the same match (source lines 186-187). -/
def stepPackageFetch (s : CState) (res : Except Unit (List IAmazonImage)) :
    CState × List (Option IAmazonImage) × List String :=
  let imgs := match res with | Except.ok l => l | Except.error _ => []
  let err := match res with | Except.ok _ => s.errorMessage | Except.error _ => some "Unable to load package images"
  let filtered := regionFilter imgs s.region
  let m := findMatchingImage filtered s.value
  let ems := match s.reconMode with
    | Mode.packageImages => [m, m]
    | Mode.searchAllImages => [m]
  ({ s with rawPackageImages := some imgs
            packageImages := some filtered
            errorMessage := err
            value := lastOr ems s.value }, ems, [])

/-- Completion of a search fetch. A rejection was caught at source lines
156-160; searchImagesInRegion$ recombines with the current region and the
search string read from state at source line 164. No selection is made. -/
def stepSearchFetch (s : CState) (res : Except Unit (List IAmazonImage)) :
    CState × List (Option IAmazonImage) × List String :=
  let raw := match res with | Except.ok l => l | Except.error _ => []
  let err := match res with | Except.ok _ => s.errorMessage | Except.error _ => some "Unable to search for images"
  ({ s with rawSearchResults := some raw
            searchResults := some (searchImagesInRegion raw s.searchString s.region)
            errorMessage := err }, [], [])

/-- A search input: the search string is stored (source line 149), and
after distinctUntilChanged and the debounce a changed string of at least 3
characters reaches the network reader (source lines 150-155 and 103-106). -/
def stepSearchInput (s : CState) (q : String) :
    CState × List (Option IAmazonImage) × List String :=
  ({ s with searchString := q }, [],
    if q ≠ s.searchString ∧ 3 ≤ q.length then [q] else [])

/-- The one-way toggle into search mode (source line 287). -/
def stepModeToggle (s : CState) : CState × List (Option IAmazonImage) × List String :=
  ({ s with mode := Mode.searchAllImages }, [], [])

/-- One event of the mounted component. Returns the next state, the
selections passed to selectImage in order, and the findImages queries
issued. -/
def step (s : CState) : Event → CState × List (Option IAmazonImage) × List String
  | Event.regionChange r => stepRegionChange s r
  | Event.packageFetchComplete res => stepPackageFetch s res
  | Event.searchFetchComplete res => stepSearchFetch s res
  | Event.searchInput q => stepSearchInput s q
  | Event.modeToggle => stepModeToggle s

/-- A run over a sequence of events, collecting every selection paired
with the region selected at the moment it was reported. -/
def run (s : CState) : List Event → List (String × Option IAmazonImage)
  | [] => []
  | e :: es =>
    ((step s e).2.1.map (fun m => ((step s e).1.region, m))) ++ run (step s e).1 es

/-- A reported selection is acceptable for region r when it is empty or
the image has an amis entry for r. -/
def validSelection (r : String) (m : Option IAmazonImage) : Prop :=
  m = none ∨ ∃ img, m = some img ∧ hasAmiInRegion img r = true

/-! ## Concrete instances used by witnesses and counterexamples -/

/-- A reader that always resolves with an empty list. -/
def fiEmptyReader : String → Except Unit (List IAmazonImage) := fun _ => Except.ok []

/-- An image whose name is too short for a similar-images query. -/
def imgShortName : IAmazonImage :=
  { imageName := "ab", amis := [("us-east-1", ["ami-000000ab"])],
    attributes := { virtualizationType := "hvm" } }

/-- The exact image of the similar-images divergence scenario. -/
def exactImageC2 : IAmazonImage :=
  { imageName := "abcdef", amis := [("us-east-1", ["ami-00000001"])],
    attributes := { virtualizationType := "hvm" } }

/-- A differently named image returned by the similar-images search. -/
def otherImageC2 : IAmazonImage :=
  { imageName := "zzzzzz", amis := [("us-east-1", ["ami-00000002"])],
    attributes := { virtualizationType := "hvm" } }

/-- A reader resolving every query with only the differently named image. -/
def readerOther : String → Except Unit (List IAmazonImage) := fun _ => Except.ok [otherImageC2]

/-- A reader resolving every query with only the exact image itself. -/
def readerExactOnly : String → Except Unit (List IAmazonImage) := fun _ => Except.ok [exactImageC2]

/-- A selected image carrying an ami in us-east-1. -/
def valueC4 : IAmazonImage :=
  { imageName := "someimg", amis := [("us-east-1", ["ami-0000000f"])],
    attributes := { virtualizationType := "hvm" } }

/-- A getImage reader that always rejects. -/
def readerGetImageFail : String → String → String → Except Unit (Option IAmazonImage) :=
  fun _ _ _ => Except.error ()

/-- A findImages reader that always rejects. -/
def readerFindImagesFail : String → Except Unit (List IAmazonImage) :=
  fun _ => Except.error ()

/-- An image present in us-west-2. -/
def imgWest : IAmazonImage :=
  { imageName := "webapp", amis := [("us-west-2", ["ami-000000aa"])],
    attributes := { virtualizationType := "hvm" } }

/-- A search-mode state whose raw search results are empty while the
search string matches the ami identifier pattern. -/
def stateC6 : CState :=
  { mode := Mode.searchAllImages
    region := "us-east-1"
    value := none
    searchString := "ami-01234567"
    rawPackageImages := some []
    rawSearchResults := some []
    packageImages := some []
    searchResults := some []
    errorMessage := none
    reconMode := Mode.searchAllImages }

/-- A package-mode state holding a fetched package list. -/
def stateC8 : CState :=
  { mode := Mode.packageImages
    region := "us-east-1"
    value := some imgWest
    searchString := ""
    rawPackageImages := some [imgWest]
    rawSearchResults := none
    packageImages := some [imgWest]
    searchResults := none
    errorMessage := none
    reconMode := Mode.packageImages }

/-- A search-mode state with a selection that has an ami in us-west-2. -/
def stateC1 : CState :=
  { mode := Mode.searchAllImages
    region := "us-east-1"
    value := some imgWest
    searchString := ""
    rawPackageImages := none
    rawSearchResults := none
    packageImages := none
    searchResults := none
    errorMessage := none
    reconMode := Mode.searchAllImages }

/-! ## Helper lemmas -/

theorem mem_regionFilter_hasAmi {raw : List IAmazonImage} {r : String} {img : IAmazonImage}
    (h : img ∈ regionFilter raw r) : hasAmiInRegion img r = true :=
  (List.mem_filter.mp h).2

theorem findMatchingImage_hasAmi {l : List IAmazonImage} {r : String}
    {v : Option IAmazonImage} {img : IAmazonImage}
    (h : findMatchingImage (regionFilter l r) v = some img) :
    hasAmiInRegion img r = true := by
  unfold findMatchingImage at h
  cases v with
  | none => exact absurd h (by simp)
  | some sel => exact mem_regionFilter_hasAmi (List.mem_of_find?_eq_some h)

theorem validSelection_of_findMatching {l : List IAmazonImage} {r : String}
    {v m : Option IAmazonImage} (h : findMatchingImage (regionFilter l r) v = m) :
    validSelection r m := by
  cases m with
  | none => exact Or.inl rfl
  | some img => exact Or.inr ⟨img, rfl, findMatchingImage_hasAmi h⟩

theorem searchModeReconcile_valid (v : Option IAmazonImage) (r : String) :
    validSelection r (searchModeReconcile v r) := by
  unfold searchModeReconcile
  cases v with
  | none => exact Or.inl rfl
  | some img =>
    cases hb : hasAmiInRegion img r with
    | false => simp [hb, validSelection]
    | true => simp only [hb, if_true]; exact Or.inr ⟨img, rfl, hb⟩

theorem getLast?_append_singleton (l : List α) (a : α) : (l ++ [a]).getLast? = some a := by
  rw [List.getLast?_append_cons]
  rfl

theorem stepRegionChange_eq (s : CState) (r : String) (hr : r ≠ s.region) :
    stepRegionChange s r =
      ({ s with region := r
                searchResults :=
                  match s.rawSearchResults with
                  | some raw => some (searchImagesInRegion raw s.searchString r)
                  | none => s.searchResults
                packageImages :=
                  match s.rawPackageImages with
                  | some raw => some (regionFilter raw r)
                  | none => s.packageImages
                reconMode := s.mode
                value := lastOr (packageSubEmission s r ++ reconEmission s r) s.value },
       packageSubEmission s r ++ reconEmission s r, []) := by
  unfold stepRegionChange
  rw [if_neg hr]

theorem packageSubEmission_valid (s : CState) (r : String) :
    ∀ m ∈ packageSubEmission s r, validSelection r m := by
  unfold packageSubEmission
  cases s.rawPackageImages with
  | none => intro m hm; exact absurd hm (by simp)
  | some raw =>
    intro m hm
    simp only [List.mem_singleton] at hm
    exact validSelection_of_findMatching hm.symm

theorem reconEmission_valid (s : CState) (r : String) :
    ∀ m ∈ reconEmission s r, validSelection r m := by
  unfold reconEmission
  cases s.mode with
  | packageImages =>
    cases s.rawPackageImages with
    | none => intro m hm; exact absurd hm (by simp)
    | some raw =>
      intro m hm
      simp only [List.mem_singleton] at hm
      exact validSelection_of_findMatching hm.symm
  | searchAllImages =>
    intro m hm
    simp only [List.mem_singleton] at hm
    rw [hm]
    exact searchModeReconcile_valid s.value r

theorem step_emissions_valid (s : CState) (e : Event) :
    ∀ m ∈ (step s e).2.1, validSelection (step s e).1.region m := by
  cases e with
  | regionChange r =>
    by_cases hr : r = s.region
    · simp [step, stepRegionChange, hr]
    · rw [step, stepRegionChange_eq s r hr]
      intro m hm
      rcases List.mem_append.mp hm with h1 | h2
      · exact packageSubEmission_valid s r m h1
      · exact reconEmission_valid s r m h2
  | packageFetchComplete res =>
    simp only [step, stepPackageFetch]
    intro m hm
    cases hrm : s.reconMode with
    | packageImages =>
      rw [hrm] at hm
      simp only [List.mem_cons, List.mem_singleton, or_self, List.not_mem_nil, or_false] at hm
      exact validSelection_of_findMatching hm.symm
    | searchAllImages =>
      rw [hrm] at hm
      simp only [List.mem_singleton] at hm
      exact validSelection_of_findMatching hm.symm
  | searchFetchComplete res => simp [step, stepSearchFetch]
  | searchInput q => simp [step, stepSearchInput]
  | modeToggle => simp [step, stepModeToggle]


/-! ## Claim theorems -/

/-- Claim C10: makeFakeImage returns none exactly when both imageName and
imageId are empty (falsy), and otherwise returns an image whose amis map
holds only the given region mapped to the one-element list [imageId],
with virtualizationType "*". -/
theorem makeFakeImage_characterization (n i r : String) :
    (makeFakeImage n i r = none ↔ (n = "" ∧ i = "")) ∧
    (¬(n = "" ∧ i = "") →
      makeFakeImage n i r =
        some { imageName := n, amis := [(r, [i])],
               attributes := { virtualizationType := "*" } }) := by
  by_cases h : n = "" ∧ i = "" <;> simp [makeFakeImage, h]

/-- Witness for claim C10 at a concrete input with an empty imageId. -/
theorem makeFakeImage_characterization_witness :
    makeFakeImage "img-a" "" "us-east-1" =
      some { imageName := "img-a", amis := [("us-east-1", [""])],
             attributes := { virtualizationType := "*" } } :=
  (makeFakeImage_characterization "img-a" "" "us-east-1").2 (by decide)

/-- Claim C9: a search string shorter than 3 characters (including the
falsy empty string) resolves to an empty list and sends no query to the
network reader. -/
theorem searchForImages_short_circuit (query : String)
    (findImages : String → Except Unit (List IAmazonImage))
    (h : query.length < 3) :
    searchForImages query findImages = ([], Except.ok []) := by
  unfold searchForImages
  rw [if_neg (by omega)]

/-- Witness for claim C9 at the two-character string "ab". -/
theorem searchForImages_short_circuit_witness :
    searchForImages "ab" fiEmptyReader = ([], Except.ok []) :=
  searchForImages_short_circuit "ab" fiEmptyReader (by decide)

/-- Claim C5: when the raw search result list is empty and the search
string matches the ami identifier pattern, the region-combined search
result is exactly the one synthesized image, whose amis map holds only
the active region mapped to the search string. -/
theorem searchImagesInRegion_synthesizes (searchString region : String)
    (h : hasAmiPattern searchString = true) :
    searchImagesInRegion [] searchString region =
      [{ imageName := searchString, amis := [(region, [searchString])],
         attributes := { virtualizationType := "*" } }] := by
  have hne : searchString ≠ "" := by
    intro he
    rw [he] at h
    exact absurd h (by decide)
  unfold searchImagesInRegion
  rw [if_pos ⟨rfl, h⟩]
  unfold makeFakeImage
  rw [if_neg (fun hc => hne hc.1)]
  rfl

/-- Witness for claim C5 at the search string "ami-0123abcd". -/
theorem searchImagesInRegion_synthesizes_witness :
    searchImagesInRegion [] "ami-0123abcd" "us-east-1" =
      [{ imageName := "ami-0123abcd", amis := [("us-east-1", ["ami-0123abcd"])],
         attributes := { virtualizationType := "*" } }] :=
  searchImagesInRegion_synthesizes "ami-0123abcd" "us-east-1" (by decide)

/-- Claim C7: the prefix derivation is a pure function of the image name;
with at most 3 hyphen segments in the part before the first underscore no
truncation happens (the query is the base plus a bare wildcard unless the
base is empty or shorter than 3 characters, in which case the derivation
returns none); after truncation a prefix shorter than 3 characters also
yields none; and a none query makes findImagesSimilarTo resolve with just
the exact image. -/
theorem buildQuery_short_prefix_fallback (name : String) :
    ((jsSplit ((jsSplit name '_').headD "") '-').length ≤ 3 →
      buildQueryForSimilarImages name =
        (if (jsSplit name '_').headD "" = "" ∨ ((jsSplit name '_').headD "").length < 3
         then none
         else some ((jsSplit name '_').headD "" ++ "*"))) ∧
    (3 < (jsSplit ((jsSplit name '_').headD "") '-').length →
      (String.intercalate "-" ((jsSplit ((jsSplit name '_').headD "") '-').take
          ((jsSplit ((jsSplit name '_').headD "") '-').length - 3))).length < 3 →
      buildQueryForSimilarImages name = none) ∧
    (∀ (exact : IAmazonImage) (findImages : String → Except Unit (List IAmazonImage)),
      buildQueryForSimilarImages exact.imageName = none →
      findImagesSimilarTo (some exact) findImages = Except.ok [exact]) := by
  refine ⟨?_, ?_, ?_⟩
  · intro h
    have hn : ¬(3 < (jsSplit ((jsSplit name '_').headD "") '-').length) := by omega
    simp only [buildQueryForSimilarImages, hn, if_false]
  · intro h3 hshort
    simp only [buildQueryForSimilarImages, h3, if_true]
    rw [if_pos (Or.inr hshort)]
  · intro exact findImages h
    simp [findImagesSimilarTo, h]

/-- Witness for claim C7: a two-character name derives no query, and the
fallback returns just the exact image. -/
theorem buildQuery_short_prefix_fallback_witness :
    buildQueryForSimilarImages "a-b-c-d" = none ∧
    findImagesSimilarTo (some imgShortName) fiEmptyReader = Except.ok [imgShortName] :=
  ⟨(buildQuery_short_prefix_fallback "a-b-c-d").2.1 (by decide) (by decide),
   (buildQuery_short_prefix_fallback "x").2.2 imgShortName fiEmptyReader (by decide)⟩

/-- Claim C3 counterexample: the name "a-b-c-d" has more than 3 hyphen
segments, yet the derivation returns none rather than the truncated
prefix "a" with a dash and wildcard, because the truncated prefix is
shorter than 3 characters. -/
theorem buildQuery_truncation_cex :
    3 < (jsSplit ((jsSplit "a-b-c-d" '_').headD "") '-').length ∧
    buildQueryForSimilarImages "a-b-c-d" = none ∧
    ¬(buildQueryForSimilarImages "a-b-c-d" = some "a-*") := by
  refine ⟨by decide, by decide, by decide⟩

/-- Claim C3 (amended): when the part before the first underscore has
more than 3 hyphen segments, and the prefix obtained by dropping the last
3 segments is nonempty and at least 3 characters long, the query is that
prefix followed by a dash and wildcard; in particular the name
myapp-1.0-1234-x86_64 yields the query myapp-*. -/
theorem buildQuery_truncation (name : String) :
    (3 < (jsSplit ((jsSplit name '_').headD "") '-').length →
      ¬(String.intercalate "-" ((jsSplit ((jsSplit name '_').headD "") '-').take
            ((jsSplit ((jsSplit name '_').headD "") '-').length - 3)) = "" ∨
        (String.intercalate "-" ((jsSplit ((jsSplit name '_').headD "") '-').take
            ((jsSplit ((jsSplit name '_').headD "") '-').length - 3))).length < 3) →
      buildQueryForSimilarImages name =
        some (String.intercalate "-" ((jsSplit ((jsSplit name '_').headD "") '-').take
            ((jsSplit ((jsSplit name '_').headD "") '-').length - 3)) ++ "-*")) ∧
    buildQueryForSimilarImages "myapp-1.0-1234-x86_64" = some "myapp-*" := by
  constructor
  · intro h3 hok
    simp only [buildQueryForSimilarImages, h3, if_true]
    rw [if_neg hok]
  · decide

/-- Witness for claim C3 at the name "alpha-1-2-3". -/
theorem buildQuery_truncation_witness :
    buildQueryForSimilarImages "alpha-1-2-3" = some "alpha-*" := by
  rw [(buildQuery_truncation "alpha-1-2-3").1 (by decide) (by decide)]
  decide

/-- Claim C2 (code bug): the source comment at line 88 documents that the
exact image is to be appended because findImages may omit it, but the
strict inequality in the find predicate at line 87 makes the append happen
precisely when every returned image carries the exact name. With the
reader returning one differently named image and omitting the exact image,
the result omits the exact image; with the reader returning only the exact
image itself, the result duplicates it. -/
theorem findImagesSimilarTo_append_divergence :
    findImagesSimilarTo (some exactImageC2) readerOther = Except.ok [otherImageC2] ∧
    exactImageC2 ∉ [otherImageC2] ∧
    findImagesSimilarTo (some exactImageC2) readerExactOnly =
      Except.ok [exactImageC2, exactImageC2] := by
  refine ⟨by rfl, by decide, by rfl⟩

/-- Claim C4 counterexample: with a selected image carrying an ami in the
region, the package load goes through getImage; when that fetch fails the
catch inside loadImagesFromImageId resolves the pipeline with an empty
list, so the observable-level catch that records the user-visible message
never fires and the recorded message stays none. -/
theorem packagePipeline_silent_failure_cex :
    imageIdOf (some valueC4) "us-east-1" = some "ami-0000000f" ∧
    readerGetImageFail "ami-0000000f" "us-east-1" "prod" = Except.error () ∧
    packagePipeline (some valueC4) "us-east-1" "prod" "someapp"
      readerGetImageFail readerFindImagesFail = ([], none) :=
  ⟨rfl, rfl, rfl⟩

/-- Claim C4 (amended): every fetch failure is caught and the pipeline
resolves with an empty list, never an unhandled rejection; the error
message is recorded for application-name package load failures and for
search failures, but a failure on the image-id package path (getImage, or
the similar-images findImages) is swallowed by the catch inside
loadImagesFromImageId and leaves no message. -/
theorem fetch_failures_caught :
    (∀ value (region credentials appName : String) getImage findImages imageId,
      imageIdOf value region = some imageId →
      getImage imageId region credentials = Except.error () →
      packagePipeline value region credentials appName getImage findImages = ([], none)) ∧
    (∀ value (region credentials appName : String) getImage findImages imageId img q,
      imageIdOf value region = some imageId →
      getImage imageId region credentials = Except.ok (some img) →
      buildQueryForSimilarImages img.imageName = some q →
      findImages q = Except.error () →
      packagePipeline value region credentials appName getImage findImages = ([], none)) ∧
    (∀ value (region credentials appName : String) getImage findImages,
      imageIdOf value region = none →
      findImages (applicationNameQuery appName) = Except.error () →
      packagePipeline value region credentials appName getImage findImages =
        ([], some "Unable to load package images")) ∧
    (∀ (query : String) findImages,
      3 ≤ query.length →
      findImages query = Except.error () →
      searchPipeline query findImages = ([query], [], some "Unable to search for images")) := by
  refine ⟨?_, ?_, ?_, ?_⟩
  · intro value region credentials appName getImage findImages imageId h1 h2
    simp [packagePipeline, fetchPackageImages, h1, loadImagesFromImageId, h2, Except.bind]
  · intro value region credentials appName getImage findImages imageId img q h1 h2 h3 h4
    simp [packagePipeline, fetchPackageImages, h1, loadImagesFromImageId, h2, Except.bind,
      findImagesSimilarTo, h3, h4, Except.map]
  · intro value region credentials appName getImage findImages h1 h2
    simp [packagePipeline, fetchPackageImages, h1, loadImagesFromApplicationName, h2]
  · intro query findImages h1 h2
    simp [searchPipeline, searchForImages, h1, h2]

/-- Witness for claim C4 at concrete failing readers. -/
theorem fetch_failures_caught_witness :
    packagePipeline (some valueC4) "us-east-1" "prod" "otherapp"
      readerGetImageFail readerFindImagesFail = ([], none) ∧
    searchPipeline "abcd" readerFindImagesFail =
      (["abcd"], [], some "Unable to search for images") :=
  ⟨fetch_failures_caught.1 (some valueC4) "us-east-1" "prod" "otherapp"
      readerGetImageFail readerFindImagesFail "ami-0000000f" rfl rfl,
   fetch_failures_caught.2.2.2 "abcd" readerFindImagesFail (by decide) rfl⟩

/-- Claim C6 counterexample: in the state with empty raw search results
and the search string "ami-01234567", a region change to us-west-2
recomputes the search results as the synthesized fake image, not as the
raw list filtered to the new region. -/
theorem regionChange_refilters_cex :
    (step stateC6 (Event.regionChange "us-west-2")).1.searchResults =
      some [{ imageName := "ami-01234567", amis := [("us-west-2", ["ami-01234567"])],
              attributes := { virtualizationType := "*" } }] ∧
    (step stateC6 (Event.regionChange "us-west-2")).1.searchResults ≠
      some (regionFilter [] "us-west-2") := by
  refine ⟨by decide, by decide⟩

/-- Claim C6 (amended): a region change recomputes the package list as
the most recently fetched raw package list filtered to images with an
amis entry for the new region, and recomputes the search results from the
most recently fetched raw search list combined with the new region; the
latter equals that raw list filtered to the new region except when the
raw list is empty and the search string matches the ami identifier
pattern, in which case it is the single synthesized image. No network
query is issued by the region change. -/
theorem regionChange_refilters (s : CState) (r : String)
    (raw rawS : List IAmazonImage)
    (hp : s.rawPackageImages = some raw) (hs : s.rawSearchResults = some rawS)
    (hr : r ≠ s.region) :
    (step s (Event.regionChange r)).1.packageImages = some (regionFilter raw r) ∧
    (step s (Event.regionChange r)).1.searchResults =
      some (searchImagesInRegion rawS s.searchString r) ∧
    (¬(rawS.length = 0 ∧ hasAmiPattern s.searchString = true) →
      (step s (Event.regionChange r)).1.searchResults = some (regionFilter rawS r)) ∧
    (step s (Event.regionChange r)).2.2 = [] := by
  rw [step, stepRegionChange_eq s r hr, hp, hs]
  refine ⟨rfl, rfl, ?_, rfl⟩
  intro hcond
  simp only [searchImagesInRegion]
  rw [if_neg hcond]

/-- Witness for claim C6: a region change on stateC6 refilters the
package list to the new region and sends no query. -/
theorem regionChange_refilters_witness :
    (step stateC6 (Event.regionChange "us-west-2")).1.packageImages =
      some (regionFilter [] "us-west-2") ∧
    (step stateC6 (Event.regionChange "us-west-2")).2.2 = [] :=
  have h := regionChange_refilters stateC6 "us-west-2" [] [] rfl rfl (by decide)
  ⟨h.1, h.2.2.2⟩

/-- Claim C8: in packageImages mode, after a region change with a fetched
raw package list, the resulting selection is the find over the
region-filtered list: if no image there carries the selected name the
selection becomes none, and otherwise it becomes the (first) entry of the
filtered list with that name. -/
theorem regionChange_package_selection (s : CState) (r : String)
    (raw : List IAmazonImage) (sel : IAmazonImage)
    (hm : s.mode = Mode.packageImages) (hp : s.rawPackageImages = some raw)
    (hv : s.value = some sel) (hr : r ≠ s.region) :
    ((∀ img ∈ regionFilter raw r, ¬(sel.imageName = img.imageName)) →
      (step s (Event.regionChange r)).1.value = none) ∧
    (∀ img, findMatchingImage (regionFilter raw r) s.value = some img →
      (step s (Event.regionChange r)).1.value = some img ∧
      img ∈ regionFilter raw r ∧ sel.imageName = img.imageName) := by
  have hval : (step s (Event.regionChange r)).1.value =
      findMatchingImage (regionFilter raw r) s.value := by
    rw [step, stepRegionChange_eq s r hr]
    simp only [packageSubEmission, reconEmission, hm, hp, lastOr,
      List.cons_append, List.nil_append, List.getLast?_cons_cons]
    rfl
  have hmatch : findMatchingImage (regionFilter raw r) s.value =
      List.find? (fun img => sel.imageName == img.imageName) (regionFilter raw r) := by
    unfold findMatchingImage
    rw [hv]
  constructor
  · intro hnone
    rw [hval, hmatch]
    exact List.find?_eq_none.mpr (fun x hx => by simpa using hnone x hx)
  · intro img hfind
    refine ⟨by rw [hval]; exact hfind, ?_, ?_⟩
    · rw [hmatch] at hfind
      exact List.mem_of_find?_eq_some hfind
    · rw [hmatch] at hfind
      have := List.find?_some hfind
      simpa using this

/-- Witness for claim C8: with the selected image present in the new
region filtered list, the selection becomes that entry. -/
theorem regionChange_package_selection_witness :
    (step stateC8 (Event.regionChange "us-west-2")).1.value = some imgWest ∧
    imgWest ∈ regionFilter [imgWest] "us-west-2" :=
  have h := (regionChange_package_selection stateC8 "us-west-2" [imgWest] imgWest
    rfl rfl rfl (by decide)).2 imgWest (by decide)
  ⟨h.1, h.2.1⟩

/-- Claim C1: over every run of region changes, fetch completions and the
other events, each selection reported through selectImage is either none
or an image with an amis entry for the region selected when it was
reported; and in search mode a region change reports, as its final
selection, the previous selection exactly when it has an amis entry in
the new region and none otherwise. -/
theorem selection_region_invariant :
    (∀ (s : CState) (events : List Event) (p : String × Option IAmazonImage),
      p ∈ run s events →
      p.2 = none ∨ ∃ img, p.2 = some img ∧ hasAmiInRegion img p.1 = true) ∧
    (∀ (s : CState) (r : String) (img : IAmazonImage),
      s.mode = Mode.searchAllImages → r ≠ s.region → s.value = some img →
      (step s (Event.regionChange r)).2.1.getLast? =
        some (if hasAmiInRegion img r then some img else none) ∧
      (step s (Event.regionChange r)).1.value =
        (if hasAmiInRegion img r then some img else none)) := by
  constructor
  · intro s events
    induction events generalizing s with
    | nil => intro p hp; exact absurd hp (by simp [run])
    | cons e es ih =>
      intro p hp
      rw [run] at hp
      rcases List.mem_append.mp hp with h1 | h2
      · rcases List.mem_map.mp h1 with ⟨m, hm, hpm⟩
        have hvalid := step_emissions_valid s e m hm
        rw [← hpm]
        exact hvalid
      · exact ih (step s e).1 p h2
  · intro s r img hmode hr hv
    have hems : (step s (Event.regionChange r)).2.1 =
        packageSubEmission s r ++ [searchModeReconcile s.value r] := by
      rw [step, stepRegionChange_eq s r hr]
      simp only [reconEmission, hmode]
    have hlast : (step s (Event.regionChange r)).2.1.getLast? =
        some (searchModeReconcile s.value r) := by
      rw [hems, getLast?_append_singleton]
    have hrecon : searchModeReconcile s.value r =
        (if hasAmiInRegion img r then some img else none) := by
      rw [hv]
      rfl
    refine ⟨by rw [hlast, hrecon], ?_⟩
    have hvalue : (step s (Event.regionChange r)).1.value =
        lastOr (step s (Event.regionChange r)).2.1 s.value := by
      rw [step, stepRegionChange_eq s r hr]
    rw [hvalue, lastOr, hlast, hrecon]
    rfl

/-- Witness for claim C1: a concrete run in search mode reports the
region-valid selection, and the region change keeps the selection that
has an amis entry in the new region. -/
theorem selection_region_invariant_witness :
    ((("us-west-2", some imgWest) : String × Option IAmazonImage).2 = none ∨
      ∃ img, (("us-west-2", some imgWest) : String × Option IAmazonImage).2 = some img ∧
        hasAmiInRegion img "us-west-2" = true) ∧
    (step stateC1 (Event.regionChange "us-west-2")).1.value =
      (if hasAmiInRegion imgWest "us-west-2" then some imgWest else none) :=
  ⟨selection_region_invariant.1 stateC1 [Event.regionChange "us-west-2"]
      ("us-west-2", some imgWest) (by decide),
   (selection_region_invariant.2 stateC1 "us-west-2" imgWest rfl (by decide) rfl).2⟩
